import Mathlib

/-!
# tinychat client: line buffer, display coordination, raw mode, event loop

A shallow embedding of `src/tinychat-client.c`.

* Bytes (`char` objects, and what `write` emits) are natural numbers below 256.
* C `int` values are `Int`; nothing in the modelled code can overflow
  (`len` moves between 0 and `IB_MAX` one step at a time).
* Output is modelled by the list of bytes each function hands to `write`.
* The `static` variables of `setRawMode` become an explicit record threaded
  through the calls; the terminal devices become a table indexed by
  descriptor.
-/

namespace TinyChat

/-! ## Line input buffer -/

/-- Capacity of the line buffer: `#define IB_MAX 128`. -/
def IB_MAX : Nat := 128

/-- Return value `IB_ERR` of the `inputBuffer*` functions. -/
def IB_ERR : Int := 0
/-- Return value `IB_OK` of the `inputBuffer*` functions. -/
def IB_OK : Int := 1
/-- Return value `IB_GOTLINE` of the `inputBuffer*` functions. -/
def IB_GOTLINE : Int := 2

/-- The C `struct InputBuffer { char buf[IB_MAX]; int len; }`.
The array has exactly `IB_MAX` cells, whatever `len` says. -/
structure InputBuffer where
  buf : List Nat
  len : Int
  buf_size : buf.length = IB_MAX

/-- Conversion of an `int` to `char` on assignment (`ib->buf[ib->len] = c`):
the byte kept is the value modulo 256. -/
def intToChar (c : Int) : Nat := (c % 256).toNat

/-- Promotion of a `char` holding byte `b` to `int` (`buf[j]` passed as an
`int` argument). With a signed `char` the bytes from 128 up are negative. -/
def charToInt (charSigned : Bool) (b : Nat) : Int :=
  if charSigned && decide (128 ≤ b) then (b : Int) - 256 else (b : Int)

/-- The store `buf[i] = v`. An index outside the array would touch memory
that is not part of the model; the array is then left as it is. -/
def storeAt (buf : List Nat) (i : Int) (v : Nat) : List Nat :=
  if 0 ≤ i then buf.set i.toNat v else buf

/-- The function `inputBufferAppend`: refuse when `len >= IB_MAX`, otherwise
store the character at `buf[len]` and bump `len`. -/
def inputBufferAppend (ib : InputBuffer) (c : Int) : InputBuffer × Int :=
  if ib.len ≥ (IB_MAX : Int) then (ib, IB_ERR)
  else
    ({ buf := storeAt ib.buf ib.len (intToChar c)
       len := ib.len + 1
       buf_size := by unfold storeAt; split <;> simp [ib.buf_size] }, IB_OK)

/-- Bytes of `terminalCleanCurrentLine`: the escape sequence `ESC [ 2 K`. -/
def terminalCleanCurrentLine : List Nat := [27, 91, 50, 75]

/-- Bytes of `terminalCursorAtLineStart`: one carriage return. -/
def terminalCursorAtLineStart : List Nat := [13]

/-- Bytes written by `inputBufferHide`; the buffer argument is unused. -/
def inputBufferHide (_ib : InputBuffer) : List Nat :=
  terminalCleanCurrentLine ++ terminalCursorAtLineStart

/-- Bytes written by `inputBufferShow`: `write(stdout, ib->buf, ib->len)`.
With `len` outside `0 .. IB_MAX` the C call would read outside the array;
the model then gives the cells the array has. -/
def inputBufferShow (ib : InputBuffer) : List Nat :=
  ib.buf.take ib.len.toNat

/-- Outcome of one `inputBufferFeedChar` call: the buffer afterwards, the
returned code, and the bytes written to the display. -/
structure Fed where
  ib : InputBuffer
  res : Int
  out : List Nat

/-- The function `inputBufferFeedChar`, a `switch` on the character. -/
def inputBufferFeedChar (ib : InputBuffer) (c : Int) : Fed :=
  if c = 10 then ⟨ib, IB_OK, []⟩
  else if c = 13 then ⟨ib, IB_GOTLINE, []⟩
  else if c = 127 then
    if ib.len > 0 then
      let ib1 : InputBuffer := { ib with len := ib.len - 1 }
      ⟨ib1, IB_OK, inputBufferHide ib1 ++ inputBufferShow ib1⟩
    else ⟨ib, IB_OK, []⟩
  else
    let r := inputBufferAppend ib c
    if r.2 = IB_OK then
      ⟨r.1, IB_OK, (r.1.buf.drop (r.1.len - 1).toNat).take 1⟩
    else ⟨r.1, IB_OK, []⟩

/-- The function `inputBufferClear`: `len = 0`, then hide. Returns the buffer
and the bytes written. -/
def inputBufferClear (ib : InputBuffer) : InputBuffer × List Nat :=
  let ib1 : InputBuffer := { ib with len := 0 }
  (ib1, inputBufferHide ib1)

/-- The pending line: the first `len` characters of the array. -/
def InputBuffer.line (ib : InputBuffer) : List Nat := ib.buf.take ib.len.toNat

/-- Result of feeding a run of keyboard bytes to `inputBufferFeedChar` one
after the other (no dispatch in between): final buffer, the returned codes in
order, and all bytes written to the display. -/
structure FedAll where
  ib : InputBuffer
  codes : List Int
  out : List Nat

/-- Feed the bytes one at a time, each promoted from `char` to `int`. -/
def feedAll (charSigned : Bool) (ib : InputBuffer) : List Nat → FedAll
  | [] => ⟨ib, [], []⟩
  | b :: bs =>
    let r := inputBufferFeedChar ib (charToInt charSigned b)
    let rest := feedAll charSigned r.ib bs
    ⟨rest.ib, r.res :: rest.codes, r.out ++ rest.out⟩

/-- A buffer with every cell zero and `len = 0`. -/
def zeroBuffer : InputBuffer :=
  ⟨List.replicate IB_MAX 0, 0, by simp⟩

/-- A buffer whose array starts with `bs` (cut to the capacity), padded with
zeros, with the given `len`. -/
def bufferOf (bs : List Nat) (len : Int) : InputBuffer :=
  ⟨(bs ++ List.replicate IB_MAX 0).take IB_MAX, len, by simp [IB_MAX]⟩

/-! ## Raw mode -/

/-- The members of `struct termios` that `setRawMode` reads or writes. -/
structure Termios where
  c_iflag : Nat
  c_oflag : Nat
  c_cflag : Nat
  c_lflag : Nat
  c_cc : List Nat
deriving DecidableEq

/-- The constants `setRawMode` takes from `<termios.h>`, which is not part of
the repository: the flag masks, the two `c_cc` indices, the number of bits of
`tcflag_t` and the size `NCCS` of `c_cc`. -/
structure TermiosConsts where
  BRKINT : Nat
  ICRNL : Nat
  INPCK : Nat
  ISTRIP : Nat
  IXON : Nat
  CS8 : Nat
  ECHO : Nat
  ICANON : Nat
  IEXTEN : Nat
  VMIN : Nat
  VTIME : Nat
  flagBits : Nat
  NCCS : Nat

/-- The values of these constants on Linux (glibc, x86-64). -/
def linuxConsts : TermiosConsts :=
  { BRKINT := 2, ICRNL := 256, INPCK := 16, ISTRIP := 32, IXON := 1024,
    CS8 := 48, ECHO := 8, ICANON := 2, IEXTEN := 32768,
    VMIN := 6, VTIME := 5, flagBits := 32, NCCS := 32 }

/-- The assignment `x &= ~m` on a `tcflag_t` of `flagBits` bits. -/
def clearBits (k : TermiosConsts) (x m : Nat) : Nat :=
  x &&& ((2 ^ k.flagBits - 1) ^^^ m)

/-- The attribute set `raw` that `setRawMode` derives from the saved one. -/
def makeRaw (k : TermiosConsts) (t : Termios) : Termios :=
  { c_iflag := clearBits k t.c_iflag
      (k.BRKINT ||| k.ICRNL ||| k.INPCK ||| k.ISTRIP ||| k.IXON)
    c_oflag := t.c_oflag
    c_cflag := t.c_cflag ||| k.CS8
    c_lflag := clearBits k t.c_lflag (k.ECHO ||| k.ICANON ||| k.IEXTEN)
    c_cc := (t.c_cc.set k.VMIN 1).set k.VTIME 0 }

/-- What the operating system holds for one descriptor: whether it is a
terminal, the attributes of the device, and whether reading and writing the
attributes succeeds on it (taken not to change during a run). -/
structure Tty where
  isatty : Bool
  attrs : Termios
  getOk : Bool
  setOk : Bool
deriving DecidableEq

/-- The descriptor table. -/
abbrev Ttys := Int → Tty

/-- The call `tcgetattr(fd, &t)`: the attributes, or `none` for `-1`. -/
def tcgetattr (w : Ttys) (fd : Int) : Option Termios :=
  if (w fd).isatty && (w fd).getOk then some (w fd).attrs else none

/-- The call `tcsetattr(fd, TCSAFLUSH, &t)`: the table afterwards, or `none`
for `-1` (nothing changed). -/
def tcsetattr (w : Ttys) (fd : Int) (t : Termios) : Option Ttys :=
  if (w fd).isatty && (w fd).setOk then
    some (Function.update w fd { w fd with attrs := t })
  else none

/-- The three `static` variables of `setRawMode`. -/
structure RawState where
  orig_termios : Termios
  atexit_registered : Bool
  rawmode_is_set : Bool
deriving DecidableEq

/-- The statics at program start: zero-initialised. -/
def RawState.init (k : TermiosConsts) : RawState :=
  { orig_termios := ⟨0, 0, 0, 0, List.replicate k.NCCS 0⟩
    atexit_registered := false
    rawmode_is_set := false }

/-- What one `setRawMode` call leaves behind and returns. -/
structure RawResult where
  st : RawState
  w : Ttys
  ret : Int

/-- The function `setRawMode(fd, enable)`. Registering the exit handler is
recorded by `atexit_registered`; `errno` is not modelled. -/
def setRawMode (k : TermiosConsts) (st : RawState) (w : Ttys) (fd : Int)
    (enable : Int) : RawResult :=
  if enable = 0 then
    if st.rawmode_is_set then
      match tcsetattr w fd st.orig_termios with
      | some w1 => ⟨{ st with rawmode_is_set := false }, w1, 0⟩
      | none => ⟨st, w, 0⟩
    else ⟨st, w, 0⟩
  else if !(w fd).isatty then ⟨st, w, -1⟩
  else
    let st1 : RawState := { st with atexit_registered := true }
    match tcgetattr w fd with
    | none => ⟨st1, w, -1⟩
    | some t =>
      let st2 : RawState := { st1 with orig_termios := t }
      match tcsetattr w fd (makeRaw k st2.orig_termios) with
      | none => ⟨st2, w, -1⟩
      | some w1 => ⟨{ st2 with rawmode_is_set := true }, w1, 0⟩

/-- Descriptor of standard input: `STDIN_FILENO`, also `fileno(stdin)`. -/
def STDIN_FILENO : Int := 0

/-- The function `disableRawModeAtExit`. -/
def disableRawModeAtExit (k : TermiosConsts) (st : RawState) (w : Ttys) :
    RawResult :=
  setRawMode k st w STDIN_FILENO 0

/-! ## Main program -/

/-- The blocking calls of the event loop, as recorded in the trace. -/
inductive Call
  | select
  | readSock
  | readStdin
deriving DecidableEq

/-- State of the running program: the line buffer, the statics of
`setRawMode`, the descriptor table, and what the program has done so far:
bytes written to standard output, bytes written to the socket, lines given
to `perror`, and the blocking calls made. Writes are taken to transfer all
the bytes they are given, and the buffering of `printf` is not modelled. -/
structure Prog where
  ib : InputBuffer
  raw : RawState
  term : Ttys
  out : List Nat
  sent : List Nat
  err : List (List Nat)
  calls : List Call

/-- What a `read(fd, buf, sizeof(buf))` gave: the returned count and the
contents of `buf` afterwards. -/
structure ReadResult where
  count : Int
  data : List Nat

/-- The bytes `buf[0] .. buf[count-1]` (none when `count <= 0`). -/
def ReadResult.bytes (r : ReadResult) : List Nat := r.data.take r.count.toNat

/-- What one pass of the loop finds: `select` failing, `select` returning 0,
the socket readable (whatever standard input is), or only standard input
readable; the last two with the result of the `read` that follows. -/
inductive Event
  | selectFail
  | selectNone
  | remote (r : ReadResult)
  | keyboard (r : ReadResult)

/-- Where the program stands: still inside `while(1)`, or gone through
`exit(status)`. -/
inductive Outcome
  | running (p : Prog)
  | exited (p : Prog) (status : Int)

/-- The call `exit(status)`: the registered handler, if any, runs first. -/
def exit (k : TermiosConsts) (p : Prog) (status : Int) : Outcome :=
  if p.raw.atexit_registered then
    let r := disableRawModeAtExit k p.raw p.term
    Outcome.exited { p with raw := r.st, term := r.w } status
  else Outcome.exited p status

/-- The text `"you> "`. -/
def youLabel : List Nat := [121, 111, 117, 62, 32]

/-- The text `"Connection lost\n"`. -/
def connectionLost : List Nat :=
  [67, 111, 110, 110, 101, 99, 116, 105, 111, 110, 32, 108, 111, 115, 116, 10]

/-- The text `"select() error"`. -/
def selectError : List Nat :=
  [115, 101, 108, 101, 99, 116, 40, 41, 32, 101, 114, 114, 111, 114]

/-- The text `"Connecting to server"`. -/
def connectingToServer : List Nat :=
  [67, 111, 110, 110, 101, 99, 116, 105, 110, 103, 32, 116, 111, 32,
   115, 101, 114, 118, 101, 114]

/-- The usage line `"Usage: %s <host> <port>\n"` for a given `argv[0]`. -/
def usageLine (argv0 : List Nat) : List Nat :=
  [85, 115, 97, 103, 101, 58, 32] ++ argv0 ++
  [32, 60, 104, 111, 115, 116, 62, 32, 60, 112, 111, 114, 116, 62, 10]

/-- The `case IB_GOTLINE` block of `main`: append a newline (the result of
the append is not looked at), hide, write the label and the buffer to the
display, write the buffer to the socket, clear. -/
def dispatchLine (p : Prog) : Prog :=
  let ib1 := (inputBufferAppend p.ib 10).1
  let shown := ib1.buf.take ib1.len.toNat
  let c := inputBufferClear ib1
  { p with
    ib := c.1
    out := p.out ++ inputBufferHide ib1 ++ youLabel ++ shown ++ c.2
    sent := p.sent ++ shown }

/-- Body of the `for` loop over the bytes read from the keyboard. -/
def keyStep (charSigned : Bool) (p : Prog) (b : Nat) : Prog :=
  let r := inputBufferFeedChar p.ib (charToInt charSigned b)
  let p1 : Prog := { p with ib := r.ib, out := p.out ++ r.out }
  if r.res = IB_GOTLINE then dispatchLine p1 else p1

/-- The keyboard branch of the loop, after its `read`. -/
def keyboardBranch (charSigned : Bool) (p : Prog) (r : ReadResult) : Prog :=
  r.bytes.foldl (keyStep charSigned) p

/-- The socket branch of the loop, after its `read`. -/
def remoteBranch (k : TermiosConsts) (p : Prog) (r : ReadResult) : Outcome :=
  if r.count ≤ 0 then
    exit k { p with out := p.out ++ connectionLost } 1
  else
    Outcome.running { p with
      out := p.out ++ inputBufferHide p.ib ++ r.bytes ++ inputBufferShow p.ib }

/-- One pass of `while(1)`. -/
def loopIter (k : TermiosConsts) (charSigned : Bool) (p : Prog) :
    Event → Outcome
  | Event.selectFail =>
    exit k { p with calls := p.calls ++ [Call.select],
                    err := p.err ++ [selectError] } 1
  | Event.selectNone =>
    Outcome.running { p with calls := p.calls ++ [Call.select] }
  | Event.remote r =>
    remoteBranch k { p with calls := p.calls ++ [Call.select, Call.readSock] } r
  | Event.keyboard r =>
    Outcome.running (keyboardBranch charSigned
      { p with calls := p.calls ++ [Call.select, Call.readStdin] } r)

/-- The loop `while(1)` run over the events that occur, one per pass. -/
def runLoop (k : TermiosConsts) (charSigned : Bool) :
    Prog → List Event → Outcome
  | p, [] => Outcome.running p
  | p, ev :: evs =>
    match loopIter k charSigned p ev with
    | Outcome.running p1 => runLoop k charSigned p1 evs
    | Outcome.exited p1 status => Outcome.exited p1 status

/-- The function `main`. `sock` is what `TCPConnect` returned, `ib0` the
uninitialised contents of the local `ib`, `term` the descriptor table at
start, `evs` what the loop meets. -/
def main (k : TermiosConsts) (charSigned : Bool) (argc : Int)
    (argv0 : List Nat) (sock : Int) (ib0 : InputBuffer) (term : Ttys)
    (evs : List Event) : Outcome :=
  let p0 : Prog := ⟨ib0, RawState.init k, term, [], [], [], []⟩
  if argc ≠ 3 then exit k { p0 with out := usageLine argv0 } 1
  else if sock = -1 then exit k { p0 with err := [connectingToServer] } 1
  else
    let r := setRawMode k p0.raw p0.term STDIN_FILENO 1
    let c := inputBufferClear p0.ib
    runLoop k charSigned
      { p0 with raw := r.st, term := r.w, ib := c.1, out := c.2 } evs

/-- The invariant on the length: `0 ≤ len ≤ IB_MAX`. -/
def LenInv (ib : InputBuffer) : Prop := 0 ≤ ib.len ∧ ib.len ≤ (IB_MAX : Int)

instance (ib : InputBuffer) : Decidable (LenInv ib) := by
  unfold LenInv; infer_instance

/-- The operations on the buffer that the program performs. -/
inductive Op
  | append (c : Int)
  | feedChar (c : Int)
  | clear
  | dispatch

/-- Apply one operation to the buffer held by the program. -/
def Op.apply (p : Prog) : Op → Prog
  | Op.append c => { p with ib := (inputBufferAppend p.ib c).1 }
  | Op.feedChar c =>
    let r := inputBufferFeedChar p.ib c
    { p with ib := r.ib, out := p.out ++ r.out }
  | Op.clear =>
    let c := inputBufferClear p.ib
    { p with ib := c.1, out := p.out ++ c.2 }
  | Op.dispatch => dispatchLine p

/-- Apply a sequence of operations, first to last. -/
def runOps (p : Prog) (ops : List Op) : Prog := ops.foldl Op.apply p

/-- A program state around a given buffer, everything else blank. -/
def progOf (ib : InputBuffer) (w : Ttys) : Prog :=
  ⟨ib, RawState.init linuxConsts, w, [], [], [], []⟩

/-- A terminal in an ordinary cooked mode, on which every call succeeds. -/
def cookedTty : Tty :=
  ⟨true, ⟨0x6d02, 5, 0xbf, 0x8a3b, List.replicate 32 0⟩, true, true⟩

/-- A descriptor that is not a terminal (a pipe, say). -/
def pipeFd : Tty :=
  ⟨false, ⟨0, 0, 0, 0, List.replicate 32 0⟩, false, false⟩

/-- The program state an outcome carries. -/
def Outcome.prog : Outcome → Prog
  | Outcome.running p => p
  | Outcome.exited p _ => p

/-- The exit status, when the program has exited. -/
def Outcome.status : Outcome → Option Int
  | Outcome.running _ => none
  | Outcome.exited _ status => some status

/-- A keyboard or socket `read` that delivered exactly the bytes `bs`. -/
def readOf (bs : List Nat) : ReadResult := ⟨(bs.length : Int), bs⟩

/-- A terminal on which reading the attributes succeeds and setting them
fails. -/
def stuckTty : Tty :=
  ⟨true, ⟨0x6d02, 5, 0xbf, 0x8a3b, List.replicate 32 0⟩, true, false⟩

/-- A program state in the loop after `setRawMode(0, 1)` succeeded on a
cooked terminal, with the given buffer and the given output so far. -/
def rawProgOf (ib : InputBuffer) (out : List Nat) : Prog :=
  ⟨ib,
   (setRawMode linuxConsts (RawState.init linuxConsts) (fun _ => cookedTty)
      STDIN_FILENO 1).st,
   (setRawMode linuxConsts (RawState.init linuxConsts) (fun _ => cookedTty)
      STDIN_FILENO 1).w,
   out, [], [], []⟩

/-! ## Facts about lists and conversions -/

theorem take_set_same (l : List Nat) (n v : Nat) :
    (l.set n v).take n = l.take n := by
  induction l generalizing n with
  | nil => simp
  | cons a t ih =>
    cases n with
    | zero => simp
    | succ m => simp [ih]

theorem take_succ_set (l : List Nat) (n v : Nat) (h : n < l.length) :
    (l.set n v).take (n + 1) = l.take n ++ [v] := by
  rw [List.take_succ, take_set_same, List.getElem?_set_self h]
  rfl

theorem drop_set_take_one (l : List Nat) (n v : Nat) (h : n < l.length) :
    ((l.set n v).drop n).take 1 = [v] := by
  induction l generalizing n with
  | nil => simp at h
  | cons a t ih =>
    cases n with
    | zero => simp
    | succ m =>
      simp only [List.set_cons_succ, List.drop_succ_cons]
      exact ih m (by simpa using h)

theorem intToChar_charToInt (charSigned : Bool) (b : Nat) (h : b < 256) :
    intToChar (charToInt charSigned b) = b := by
  unfold intToChar charToInt
  split <;> omega

theorem charToInt_eq_iff (charSigned : Bool) (b : Nat) (h : b < 256) (v : Nat)
    (hv : v < 128) : charToInt charSigned b = (v : Int) ↔ b = v := by
  unfold charToInt
  split
  · rename_i hc
    simp only [Bool.and_eq_true, decide_eq_true_eq] at hc
    omega
  · omega

/-! ## Facts about the buffer operations -/

theorem append_room (ib : InputBuffer) (c : Int) (h0 : 0 ≤ ib.len)
    (h1 : ib.len < (IB_MAX : Int)) :
    (inputBufferAppend ib c).2 = IB_OK ∧
    (inputBufferAppend ib c).1.len = ib.len + 1 ∧
    (inputBufferAppend ib c).1.line = ib.line ++ [intToChar c] ∧
    ((inputBufferAppend ib c).1.buf.drop
      ((inputBufferAppend ib c).1.len - 1).toNat).take 1 = [intToChar c] := by
  have hlt : ib.len.toNat < ib.buf.length := by
    rw [ib.buf_size]; omega
  have hn : (ib.len + 1).toNat = ib.len.toNat + 1 := by omega
  have hm : (ib.len + 1 - 1).toNat = ib.len.toNat := by simp
  unfold inputBufferAppend InputBuffer.line
  rw [if_neg (by omega)]
  simp only [storeAt, if_pos h0, hn, hm]
  exact ⟨trivial, trivial, take_succ_set _ _ _ hlt, drop_set_take_one _ _ _ hlt⟩

theorem feedChar_plain (ib : InputBuffer) (c : Int) (h10 : c ≠ 10)
    (h13 : c ≠ 13) (h127 : c ≠ 127) (h0 : 0 ≤ ib.len)
    (h1 : ib.len < (IB_MAX : Int)) :
    (inputBufferFeedChar ib c).res = IB_OK ∧
    (inputBufferFeedChar ib c).ib.len = ib.len + 1 ∧
    (inputBufferFeedChar ib c).ib.line = ib.line ++ [intToChar c] ∧
    (inputBufferFeedChar ib c).out = [intToChar c] := by
  obtain ⟨a1, a2, a3, a4⟩ := append_room ib c h0 h1
  unfold inputBufferFeedChar
  rw [if_neg h10, if_neg h13, if_neg h127]
  simp only [a1, if_true]
  exact ⟨trivial, a2, a3, a4⟩

theorem feed_run_of_plain (charSigned : Bool) (bs : List Nat) :
    ∀ ib : InputBuffer, 0 ≤ ib.len → ib.len + bs.length ≤ (IB_MAX : Int) →
    (∀ b ∈ bs, b < 256 ∧ b ≠ 10 ∧ b ≠ 13 ∧ b ≠ 127) →
    (feedAll charSigned ib bs).codes = List.replicate bs.length IB_OK ∧
    (feedAll charSigned ib bs).ib.line = ib.line ++ bs ∧
    (feedAll charSigned ib bs).ib.len = ib.len + bs.length ∧
    (feedAll charSigned ib bs).out = bs := by
  induction bs with
  | nil => intro ib _ _ _; simp [feedAll]
  | cons b t ih =>
    intro ib h0 hlen hb
    obtain ⟨hb256, hb10, hb13, hb127⟩ := hb b (List.mem_cons_self _ _)
    have e := intToChar_charToInt charSigned b hb256
    have c10 : charToInt charSigned b ≠ 10 := fun h =>
      hb10 ((charToInt_eq_iff charSigned b hb256 10 (by decide)).mp h)
    have c13 : charToInt charSigned b ≠ 13 := fun h =>
      hb13 ((charToInt_eq_iff charSigned b hb256 13 (by decide)).mp h)
    have c127 : charToInt charSigned b ≠ 127 := fun h =>
      hb127 ((charToInt_eq_iff charSigned b hb256 127 (by decide)).mp h)
    simp only [List.length_cons, Nat.cast_add, Nat.cast_one] at hlen
    obtain ⟨f1, f2, f3, f4⟩ :=
      feedChar_plain ib (charToInt charSigned b) c10 c13 c127 h0 (by omega)
    obtain ⟨g1, g2, g3, g4⟩ :=
      ih (inputBufferFeedChar ib (charToInt charSigned b)).ib (by omega)
        (by omega) (fun x hx => hb x (List.mem_cons_of_mem _ hx))
    simp only [feedAll, g1, g2, g3, g4, f1, f2, f3, f4, e]
    refine ⟨by simp [List.replicate_succ], by simp, ?_, by simp⟩
    simp only [List.length_cons, Nat.cast_add, Nat.cast_one]
    omega

/-! ## The claims about the line buffer -/

/-- C1: feeding at most `IB_MAX` bytes, none of them line feed, carriage
return or 127, one at a time to `inputBufferFeedChar` from an empty buffer
returns `IB_OK` each time, leaves the first `len` characters of the buffer
equal to the bytes fed and `len` equal to their number (and echoes exactly
those bytes). Control characters other than the three named ones are stored
like any other byte, so the statement covers every input without control
characters. It holds whether `char` is signed or not. -/
theorem feedAll_plain (charSigned : Bool) (ib : InputBuffer) (bs : List Nat)
    (hempty : ib.len = 0) (hlen : bs.length ≤ IB_MAX)
    (hplain : ∀ b ∈ bs, b < 256 ∧ b ≠ 10 ∧ b ≠ 13 ∧ b ≠ 127) :
    (feedAll charSigned ib bs).codes = List.replicate bs.length IB_OK ∧
    (feedAll charSigned ib bs).ib.buf.take
      (feedAll charSigned ib bs).ib.len.toNat = bs ∧
    (feedAll charSigned ib bs).ib.len = bs.length ∧
    (feedAll charSigned ib bs).out = bs := by
  obtain ⟨g1, g2, g3, g4⟩ :=
    feed_run_of_plain charSigned bs ib (by omega)
      (by rw [hempty]; exact_mod_cast (by simpa using hlen)) hplain
  refine ⟨g1, ?_, by omega, g4⟩
  have : ib.line = [] := by simp [InputBuffer.line, hempty]
  rw [this] at g2
  simpa [InputBuffer.line] using g2

theorem feedAll_plain_witness :
    zeroBuffer.len = 0 ∧ [104, 105, 1, 200].length ≤ IB_MAX ∧
    (feedAll true zeroBuffer [104, 105, 1, 200]).codes
      = List.replicate [104, 105, 1, 200].length IB_OK ∧
    (feedAll true zeroBuffer [104, 105, 1, 200]).ib.buf.take
      (feedAll true zeroBuffer [104, 105, 1, 200]).ib.len.toNat
      = [104, 105, 1, 200] ∧
    (feedAll true zeroBuffer [104, 105, 1, 200]).ib.len
      = [104, 105, 1, 200].length ∧
    (feedAll true zeroBuffer [104, 105, 1, 200]).out = [104, 105, 1, 200] :=
  ⟨by decide, by decide,
   feedAll_plain true zeroBuffer [104, 105, 1, 200] (by decide) (by decide)
     (by decide)⟩

theorem feedChar_res_other (ib : InputBuffer) (c : Int) (h : c ≠ 13) :
    (inputBufferFeedChar ib c).res = IB_OK := by
  unfold inputBufferFeedChar
  rw [if_neg h]
  dsimp only
  split_ifs <;> rfl

theorem feedChar_code (charSigned : Bool) (ib : InputBuffer) (b : Nat)
    (hb : b < 256) :
    (inputBufferFeedChar ib (charToInt charSigned b)).res
      = if b = 13 then IB_GOTLINE else IB_OK := by
  have e13 := charToInt_eq_iff charSigned b hb 13 (by decide)
  by_cases h13 : b = 13
  · subst h13
    have : charToInt charSigned 13 = 13 := e13.mpr rfl
    simp [this, inputBufferFeedChar]
  · rw [if_neg h13]
    exact feedChar_res_other ib _ (fun h => h13 (e13.mp h))

theorem feedAll_codes (charSigned : Bool) (bs : List Nat) :
    ∀ ib : InputBuffer, (∀ b ∈ bs, b < 256) →
    (feedAll charSigned ib bs).codes
      = bs.map (fun b => if b = 13 then IB_GOTLINE else IB_OK) := by
  induction bs with
  | nil => intro ib _; rfl
  | cons b t ih =>
    intro ib hb
    simp only [feedAll, List.map_cons]
    rw [feedChar_code charSigned ib b (hb b (List.mem_cons_self _ _)),
      ih _ (fun x hx => hb x (List.mem_cons_of_mem _ hx))]

theorem count_gotline_map (bs : List Nat) :
    (bs.map (fun b => if b = 13 then IB_GOTLINE else IB_OK)).count IB_GOTLINE
      = bs.count 13 := by
  induction bs with
  | nil => rfl
  | cons b t ih =>
    by_cases h : b = 13
    · subst h; simp [ih]
    · have h2 : ¬ (13 = b) := fun e => h e.symm
      have h3 : (IB_OK == IB_GOTLINE) = false := by decide
      simp only [List.map_cons, if_neg h, List.count_cons, h3, ih]
      simp [h]

/-- C3: for every buffer and every sequence of bytes fed one at a time
through `inputBufferFeedChar`, each carriage return gives `IB_GOTLINE` and
every other byte (line feed and 127 included) gives `IB_OK`, so the number
of `IB_GOTLINE` results is the number of carriage returns; and a call that
returns `IB_GOTLINE` was given a carriage return, leaves the buffer (length
and array) as it was and writes nothing. -/
theorem gotline_per_carriage_return (charSigned : Bool) (ib : InputBuffer)
    (bs : List Nat) (hb : ∀ b ∈ bs, b < 256) :
    (feedAll charSigned ib bs).codes
      = bs.map (fun b => if b = 13 then IB_GOTLINE else IB_OK) ∧
    (feedAll charSigned ib bs).codes.count IB_GOTLINE = bs.count 13 ∧
    (∀ (ib1 : InputBuffer) (c : Int),
      (inputBufferFeedChar ib1 c).res = IB_GOTLINE →
      c = 13 ∧ (inputBufferFeedChar ib1 c).ib = ib1 ∧
      (inputBufferFeedChar ib1 c).out = []) := by
  have h := feedAll_codes charSigned bs ib hb
  refine ⟨h, by rw [h, count_gotline_map], ?_⟩
  intro ib1 c hres
  by_cases h13 : c = 13
  · subst h13
    exact ⟨rfl, rfl, rfl⟩
  · rw [feedChar_res_other ib1 c h13] at hres
    exact absurd hres (by decide)

theorem gotline_per_carriage_return_witness :
    (∀ b ∈ [104, 127, 127, 13, 10, 13], b < 256) ∧
    (feedAll false (bufferOf [97, 98] 2) [104, 127, 127, 13, 10, 13]).codes.count
      IB_GOTLINE = 2 :=
  ⟨by decide,
   (gotline_per_carriage_return false (bufferOf [97, 98] 2)
      [104, 127, 127, 13, 10, 13] (by decide)).2.1⟩

theorem take_pred_eq_dropLast (l : List Nat) (n : Nat) (h : n ≤ l.length) :
    l.take (n - 1) = (l.take n).dropLast := by
  rw [List.dropLast_eq_take, List.length_take, Nat.min_eq_left h,
    List.take_take, Nat.min_eq_left (Nat.sub_le _ _)]

/-- C4: for every buffer, feeding byte 127 to `inputBufferFeedChar` returns
`IB_OK` and never touches the array. If `len > 0` the new `len` is
`len - 1`, the bytes written are the erase-line sequence, a carriage return
and then the first `len - 1` characters, and (with `len` within the
capacity) the pending line is the old one without its last character. If
`len` is 0 the length stays 0 and nothing at all is written, so nothing
beyond a hide and show of an empty line. -/
theorem backspace_removes_last (ib : InputBuffer) :
    (inputBufferFeedChar ib 127).res = IB_OK ∧
    (inputBufferFeedChar ib 127).ib.buf = ib.buf ∧
    (0 < ib.len →
      (inputBufferFeedChar ib 127).ib.len = ib.len - 1 ∧
      (inputBufferFeedChar ib 127).out
        = terminalCleanCurrentLine ++ terminalCursorAtLineStart ++
          ib.buf.take (ib.len - 1).toNat ∧
      (inputBufferFeedChar ib 127).out
        = inputBufferHide ib ++ (inputBufferFeedChar ib 127).ib.line ∧
      (ib.len ≤ (IB_MAX : Int) →
        (inputBufferFeedChar ib 127).ib.line = ib.line.dropLast)) ∧
    (ib.len = 0 →
      (inputBufferFeedChar ib 127).ib.len = 0 ∧
      (inputBufferFeedChar ib 127).ib.line = [] ∧
      (inputBufferFeedChar ib 127).out = []) := by
  refine ⟨feedChar_res_other ib 127 (by decide), ?_, ?_, ?_⟩
  · unfold inputBufferFeedChar
    simp only [show ¬ ((127 : Int) = 10) by decide,
      show ¬ ((127 : Int) = 13) by decide, if_false, if_true]
    split <;> rfl
  · intro hpos
    have e : inputBufferFeedChar ib 127
        = ⟨{ ib with len := ib.len - 1 }, IB_OK,
           inputBufferHide { ib with len := ib.len - 1 } ++
           inputBufferShow { ib with len := ib.len - 1 }⟩ := by
      unfold inputBufferFeedChar
      simp only [show ¬ ((127 : Int) = 10) by decide,
        show ¬ ((127 : Int) = 13) by decide, if_false, if_true]
      rw [if_pos hpos]
    rw [e]
    refine ⟨rfl, rfl, rfl, ?_⟩
    intro hcap
    have hle : ib.len.toNat ≤ ib.buf.length := by rw [ib.buf_size]; omega
    have hn : (ib.len - 1).toNat = ib.len.toNat - 1 := by omega
    simp only [InputBuffer.line, hn]
    exact take_pred_eq_dropLast _ _ hle
  · intro hzero
    have e : inputBufferFeedChar ib 127 = ⟨ib, IB_OK, []⟩ := by
      unfold inputBufferFeedChar
      simp only [show ¬ ((127 : Int) = 10) by decide,
        show ¬ ((127 : Int) = 13) by decide, if_false, if_true]
      rw [if_neg (by omega)]
    rw [e]
    exact ⟨hzero, by simp [InputBuffer.line, hzero], rfl⟩

theorem backspace_removes_last_witness :
    (0 : Int) < (bufferOf [104, 105] 2).len ∧
    (inputBufferFeedChar (bufferOf [104, 105] 2) 127).ib.len = 1 ∧
    (inputBufferFeedChar (bufferOf [104, 105] 2) 127).out
      = [27, 91, 50, 75, 13, 104] ∧
    (inputBufferFeedChar (bufferOf [104, 105] 2) 127).ib.line = [104] ∧
    zeroBuffer.len = 0 ∧
    (inputBufferFeedChar zeroBuffer 127).out = [] :=
  have h := backspace_removes_last (bufferOf [104, 105] 2)
  have h0 := backspace_removes_last zeroBuffer
  ⟨by decide, (h.2.2.1 (by decide)).1, (h.2.2.1 (by decide)).2.1,
   (h.2.2.1 (by decide)).2.2.2 (by decide), by decide,
   (h0.2.2.2 (by decide)).2.2⟩

/-- C5: for every buffer with `len = IB_MAX` and every character,
`inputBufferAppend` returns `IB_ERR` and leaves the buffer (length and
array) as it was; and feeding a character other than line feed, carriage
return and 127 through `inputBufferFeedChar` in that state writes nothing,
returns `IB_OK` and leaves the buffer as it was. -/
theorem append_full_dropped (ib : InputBuffer) (c : Int)
    (hfull : ib.len = (IB_MAX : Int)) :
    inputBufferAppend ib c = (ib, IB_ERR) ∧
    (c ≠ 10 → c ≠ 13 → c ≠ 127 →
      (inputBufferFeedChar ib c).out = [] ∧
      (inputBufferFeedChar ib c).res = IB_OK ∧
      (inputBufferFeedChar ib c).ib = ib) := by
  have e : inputBufferAppend ib c = (ib, IB_ERR) := by
    unfold inputBufferAppend
    rw [if_pos (by omega)]
  refine ⟨e, ?_⟩
  intro h10 h13 h127
  unfold inputBufferFeedChar
  rw [if_neg h10, if_neg h13, if_neg h127]
  simp only [e]
  rw [if_neg (by decide)]
  exact ⟨rfl, rfl, rfl⟩

theorem append_full_dropped_witness :
    (bufferOf (List.replicate 128 97) 128).len = (IB_MAX : Int) ∧
    (98 : Int) ≠ 10 ∧ (98 : Int) ≠ 13 ∧ (98 : Int) ≠ 127 ∧
    (inputBufferAppend (bufferOf (List.replicate 128 97) 128) 98).2 = IB_ERR ∧
    (inputBufferFeedChar (bufferOf (List.replicate 128 97) 128) 98).out = [] ∧
    (inputBufferFeedChar (bufferOf (List.replicate 128 97) 128) 98).res
      = IB_OK :=
  have h := append_full_dropped (bufferOf (List.replicate 128 97) 128) 98
    (by decide)
  ⟨by decide, by decide, by decide, by decide, by rw [h.1],
   (h.2 (by decide) (by decide) (by decide)).1,
   (h.2 (by decide) (by decide) (by decide)).2.1⟩

/-! ## The length invariant -/

theorem inv_append (ib : InputBuffer) (c : Int) (h : LenInv ib) :
    LenInv (inputBufferAppend ib c).1 := by
  unfold LenInv at *
  unfold inputBufferAppend
  split
  · exact h
  · dsimp only
    omega

theorem inv_feedChar (ib : InputBuffer) (c : Int) (h : LenInv ib) :
    LenInv (inputBufferFeedChar ib c).ib := by
  unfold inputBufferFeedChar
  dsimp only
  split_ifs
  · exact h
  · exact h
  · unfold LenInv at *
    dsimp only
    omega
  · exact h
  · exact inv_append ib c h
  · exact inv_append ib c h

theorem inv_clear (ib : InputBuffer) : LenInv (inputBufferClear ib).1 := by
  unfold LenInv inputBufferClear IB_MAX
  dsimp only
  omega

theorem inv_dispatchLine (p : Prog) : LenInv (dispatchLine p).ib :=
  inv_clear _

theorem inv_apply (p : Prog) (op : Op) (h : LenInv p.ib) :
    LenInv (op.apply p).ib := by
  cases op with
  | append c => exact inv_append p.ib c h
  | feedChar c => exact inv_feedChar p.ib c h
  | clear => exact inv_clear p.ib
  | dispatch => exact inv_dispatchLine p

theorem inv_runOps (ops : List Op) :
    ∀ p : Prog, LenInv p.ib → LenInv (runOps p ops).ib := by
  induction ops with
  | nil => intro p h; exact h
  | cons op t ih => intro p h; exact ih (op.apply p) (inv_apply p op h)

theorem inv_keyStep (charSigned : Bool) (p : Prog) (b : Nat)
    (h : LenInv p.ib) : LenInv (keyStep charSigned p b).ib := by
  unfold keyStep
  dsimp only
  split
  · exact inv_dispatchLine _
  · exact inv_feedChar p.ib _ h

theorem inv_foldl_keyStep (charSigned : Bool) (bs : List Nat) :
    ∀ p : Prog, LenInv p.ib → LenInv (bs.foldl (keyStep charSigned) p).ib := by
  induction bs with
  | nil => intro p h; exact h
  | cons b t ih => intro p h; exact ih _ (inv_keyStep charSigned p b h)

theorem exit_ib (k : TermiosConsts) (p : Prog) (status : Int) :
    (exit k p status).prog.ib = p.ib := by
  unfold exit
  split <;> rfl

theorem remoteBranch_ib (k : TermiosConsts) (p : Prog) (r : ReadResult) :
    (remoteBranch k p r).prog.ib = p.ib := by
  unfold remoteBranch
  split
  · rw [exit_ib]
  · rfl

theorem inv_loopIter (k : TermiosConsts) (charSigned : Bool) (p : Prog)
    (ev : Event) (h : LenInv p.ib) :
    LenInv (loopIter k charSigned p ev).prog.ib := by
  cases ev with
  | selectFail =>
    show LenInv (exit k _ 1).prog.ib
    rw [exit_ib]; exact h
  | selectNone => exact h
  | remote r =>
    show LenInv (remoteBranch k _ r).prog.ib
    rw [remoteBranch_ib]; exact h
  | keyboard r =>
    exact inv_foldl_keyStep charSigned r.bytes _ h

theorem inv_runLoop (k : TermiosConsts) (charSigned : Bool)
    (evs : List Event) :
    ∀ p : Prog, LenInv p.ib → LenInv (runLoop k charSigned p evs).prog.ib := by
  induction evs with
  | nil => intro p h; exact h
  | cons ev t ih =>
    intro p h
    have h1 := inv_loopIter k charSigned p ev h
    unfold runLoop
    split
    · rename_i p1 e
      rw [e] at h1
      exact ih p1 h1
    · rename_i p1 st e
      rw [e] at h1
      exact h1

/-- C6: the invariant `0 ≤ len ≤ IB_MAX`. It holds after
`inputBufferClear`; `inputBufferAppend`, `inputBufferFeedChar` (any byte),
`inputBufferClear` and the line-dispatch step of the loop each preserve it;
so does every sequence of these operations, of any length, and so does the
event loop over any sequence of events. In particular it holds in every
state the loop of `main` reaches. -/
theorem len_invariant (k : TermiosConsts) (charSigned : Bool) (p : Prog)
    (ops : List Op) (evs : List Event) (c : Int) (sock : Int)
    (argv0 : List Nat) :
    LenInv (inputBufferClear p.ib).1 ∧
    (LenInv p.ib → LenInv (inputBufferAppend p.ib c).1) ∧
    (LenInv p.ib → LenInv (inputBufferFeedChar p.ib c).ib) ∧
    LenInv (dispatchLine p).ib ∧
    (LenInv p.ib → LenInv (runOps p ops).ib) ∧
    (LenInv p.ib → LenInv (runLoop k charSigned p evs).prog.ib) ∧
    (sock ≠ -1 →
      LenInv (main k charSigned 3 argv0 sock p.ib p.term evs).prog.ib) := by
  refine ⟨inv_clear _, inv_append _ _, inv_feedChar _ _, inv_dispatchLine _,
    inv_runOps ops p, inv_runLoop k charSigned evs p, ?_⟩
  intro hs
  unfold main
  simp only [ne_eq, not_true_eq_false, if_false, if_neg hs]
  exact inv_runLoop k charSigned evs _ (inv_clear _)

theorem len_invariant_witness :
    LenInv (progOf (bufferOf [104, 105] 2) (fun _ => cookedTty)).ib ∧
    LenInv (runOps (progOf (bufferOf [104, 105] 2) (fun _ => cookedTty))
      [Op.feedChar 127, Op.append 97, Op.dispatch, Op.clear]).ib ∧
    (5 : Int) ≠ -1 ∧
    LenInv (main linuxConsts true 3 [] 5 (bufferOf [104, 105] 2)
      (fun _ => cookedTty) [Event.keyboard (readOf [104, 13])]).prog.ib :=
  have h := len_invariant linuxConsts true
    (progOf (bufferOf [104, 105] 2) (fun _ => cookedTty))
    [Op.feedChar 127, Op.append 97, Op.dispatch, Op.clear]
    [Event.keyboard (readOf [104, 13])] 97 5 []
  ⟨by decide, h.2.2.2.2.1 (by decide), by decide, h.2.2.2.2.2.2 (by decide)⟩

/-! ## The socket branch -/

theorem readOf_bytes (bs : List Nat) : (readOf bs).bytes = bs := by
  simp [readOf, ReadResult.bytes]

/-- C7: for every program state and every `read` on the socket that returns
a positive count, the socket branch of the loop writes to the display exactly
the erase-line sequence `ESC [ 2 K` and a carriage return, then the first
`count` bytes of the read buffer as they are (and no byte of the buffer
beyond the count), then the first `len` characters of the line buffer, in
that order, and leaves everything else, the line buffer's length and array
included, as it was; the program stays in the loop. In particular, for a
non-empty chunk `bs` delivered whole, the bytes between hide and show are
`bs`. -/
theorem remote_data_redraw (k : TermiosConsts) (p : Prog) (r : ReadResult)
    (hpos : 0 < r.count) :
    remoteBranch k p r = Outcome.running { p with
      out := p.out ++ [27, 91, 50, 75] ++ [13] ++ r.data.take r.count.toNat
        ++ p.ib.buf.take p.ib.len.toNat } ∧
    (remoteBranch k p r).prog.out
      = p.out ++ [27, 91, 50, 75, 13] ++ r.data.take r.count.toNat
        ++ p.ib.buf.take p.ib.len.toNat ∧
    (remoteBranch k p r).prog.ib = p.ib ∧
    (remoteBranch k p r).prog.sent = p.sent ∧
    (remoteBranch k p r).status = none ∧
    (∀ bs : List Nat, bs ≠ [] →
      remoteBranch k p (readOf bs) = Outcome.running { p with
        out := p.out ++ (terminalCleanCurrentLine ++ terminalCursorAtLineStart)
          ++ bs ++ p.ib.buf.take p.ib.len.toNat } ∧
      (remoteBranch k p (readOf bs)).prog.ib = p.ib ∧
      (remoteBranch k p (readOf bs)).prog.sent = p.sent) := by
  have gen : ∀ r1 : ReadResult, 0 < r1.count →
      remoteBranch k p r1 = Outcome.running { p with
        out := p.out ++ [27, 91, 50, 75] ++ [13]
          ++ r1.data.take r1.count.toNat
          ++ p.ib.buf.take p.ib.len.toNat } := by
    intro r1 h1
    unfold remoteBranch
    rw [if_neg (by omega)]
    simp [inputBufferHide, inputBufferShow, ReadResult.bytes,
      terminalCleanCurrentLine, terminalCursorAtLineStart]
  have e := gen r hpos
  refine ⟨e, ?_, ?_, ?_, ?_, ?_⟩
  · rw [e]; simp [Outcome.prog]
  · rw [e]; rfl
  · rw [e]; rfl
  · rw [e]; rfl
  · intro bs hne
    have hb : 0 < (readOf bs).count := by
      cases bs with
      | nil => exact absurd rfl hne
      | cons a t => simp only [readOf, List.length_cons]; omega
    have e2 := gen (readOf bs) hb
    have e3 : remoteBranch k p (readOf bs) = Outcome.running { p with
        out := p.out ++ (terminalCleanCurrentLine ++ terminalCursorAtLineStart)
          ++ bs ++ p.ib.buf.take p.ib.len.toNat } := by
      rw [e2]
      simp [readOf, terminalCleanCurrentLine, terminalCursorAtLineStart]
    rw [e3]
    exact ⟨rfl, rfl, rfl⟩

theorem remote_data_redraw_witness :
    (0 : Int) < (ReadResult.mk 2 [121, 111, 88, 88]).count ∧
    (remoteBranch linuxConsts
      (progOf (bufferOf [104, 101] 2) (fun _ => cookedTty))
      (ReadResult.mk 2 [121, 111, 88, 88])).prog.out
      = [27, 91, 50, 75, 13, 121, 111, 104, 101] ∧
    (remoteBranch linuxConsts
      (progOf (bufferOf [104, 101] 2) (fun _ => cookedTty))
      (ReadResult.mk 2 [121, 111, 88, 88])).prog.ib.line = [104, 101] ∧
    [121, 111, 10] ≠ [] ∧
    (remoteBranch linuxConsts
      (progOf (bufferOf [104, 101] 2) (fun _ => cookedTty))
      (readOf [121, 111, 10])).prog.out
      = [27, 91, 50, 75, 13, 121, 111, 10, 104, 101] :=
  have h := remote_data_redraw linuxConsts
    (progOf (bufferOf [104, 101] 2) (fun _ => cookedTty))
    (ReadResult.mk 2 [121, 111, 88, 88]) (by decide)
  ⟨by decide, by rw [h.2.1]; decide, by rw [h.2.2.1]; decide, by decide,
   by rw [(h.2.2.2.2.2 [121, 111, 10] (by decide)).1]; decide⟩

/-! ## Line dispatch -/

theorem keyStep_carriage_return (charSigned : Bool) (p : Prog) :
    keyStep charSigned p 13 = dispatchLine { p with out := p.out ++ [] } := by
  have e : charToInt charSigned 13 = 13 := by
    unfold charToInt; simp
  unfold keyStep
  rw [e]
  rfl

/-- With room left for the newline (`0 ≤ len < IB_MAX`) the dispatch step
forwards the pending line followed by one newline, echoes the label and the
same bytes between two hides, and leaves the buffer empty. -/
theorem dispatchLine_with_room (p : Prog) (h0 : 0 ≤ p.ib.len)
    (h1 : p.ib.len < (IB_MAX : Int)) :
    (dispatchLine p).sent = p.sent ++ (p.ib.line ++ [10]) ∧
    (dispatchLine p).out = p.out ++ inputBufferHide p.ib ++ youLabel ++
      (p.ib.line ++ [10]) ++ inputBufferHide p.ib ∧
    (dispatchLine p).ib.len = 0 := by
  obtain ⟨_, _, a3, _⟩ := append_room p.ib 10 h0 h1
  have e : intToChar 10 = 10 := by decide
  rw [e] at a3
  unfold InputBuffer.line at a3
  unfold dispatchLine
  dsimp only
  rw [a3]
  exact ⟨rfl, rfl, rfl⟩

/-- With the buffer full (`len = IB_MAX`) the append of the newline is
refused, and the dispatch step forwards the `IB_MAX` characters alone. -/
theorem dispatchLine_full (p : Prog) (hfull : p.ib.len = (IB_MAX : Int)) :
    (dispatchLine p).sent = p.sent ++ p.ib.line ∧
    (dispatchLine p).out = p.out ++ inputBufferHide p.ib ++ youLabel ++
      p.ib.line ++ inputBufferHide p.ib ∧
    (dispatchLine p).ib.len = 0 := by
  have e : inputBufferAppend p.ib 10 = (p.ib, IB_ERR) := by
    unfold inputBufferAppend
    rw [if_pos (by omega)]
  unfold dispatchLine
  dsimp only
  rw [e]
  exact ⟨rfl, rfl, rfl⟩

/-- The scenario of the specification: `h`, `i`, 127, `e`, `y` leave `hey`
in the buffer; the carriage return then forwards `hey` and a newline and
leaves the buffer empty. -/
theorem scenario_hey :
    (keyboardBranch true (progOf zeroBuffer (fun _ => cookedTty))
      (readOf [104, 105, 127, 101, 121])).ib.line = [104, 101, 121] ∧
    (keyboardBranch true (progOf zeroBuffer (fun _ => cookedTty))
      (readOf [104, 105, 127, 101, 121, 13])).sent = [104, 101, 121, 10] ∧
    (keyboardBranch true (progOf zeroBuffer (fun _ => cookedTty))
      (readOf [104, 105, 127, 101, 121, 13])).ib.len = 0 := by
  decide

set_option maxRecDepth 200000 in
/-- C2, evaluated at a full line: after 128 letters `a` have been typed, a
carriage return makes the loop forward the 128 letters with no newline
after them (the last byte forwarded is `a`, not 10); the buffer is empty
afterwards. -/
theorem full_line_forwarded_without_newline :
    (main linuxConsts true 3 [] 5 zeroBuffer (fun _ => cookedTty)
      [Event.keyboard (readOf (List.replicate 128 97))]).prog.ib.line
      = List.replicate 128 97 ∧
    (main linuxConsts true 3 [] 5 zeroBuffer (fun _ => cookedTty)
      [Event.keyboard (readOf (List.replicate 128 97)),
       Event.keyboard (readOf [13])]).prog.sent = List.replicate 128 97 ∧
    (main linuxConsts true 3 [] 5 zeroBuffer (fun _ => cookedTty)
      [Event.keyboard (readOf (List.replicate 128 97)),
       Event.keyboard (readOf [13])]).prog.sent
      ≠ List.replicate 128 97 ++ [10] ∧
    (main linuxConsts true 3 [] 5 zeroBuffer (fun _ => cookedTty)
      [Event.keyboard (readOf (List.replicate 128 97)),
       Event.keyboard (readOf [13])]).prog.ib.len = 0 := by
  decide

/-! ## Raw mode -/

theorem enable_success (k : TermiosConsts) (st : RawState) (w : Ttys)
    (fd : Int) (htty : (w fd).isatty = true) (hget : (w fd).getOk = true)
    (hset : (w fd).setOk = true) :
    setRawMode k st w fd 1 =
      ⟨{ orig_termios := (w fd).attrs, atexit_registered := true,
         rawmode_is_set := true },
       Function.update w fd { w fd with attrs := makeRaw k (w fd).attrs },
       0⟩ := by
  unfold setRawMode
  simp [tcgetattr, tcsetattr, htty, hget, hset]

theorem disable_active (k : TermiosConsts) (st : RawState) (w : Ttys)
    (fd : Int) (hraw : st.rawmode_is_set = true)
    (htty : (w fd).isatty = true) (hset : (w fd).setOk = true) :
    setRawMode k st w fd 0 =
      ⟨{ st with rawmode_is_set := false },
       Function.update w fd { w fd with attrs := st.orig_termios }, 0⟩ := by
  unfold setRawMode
  simp [tcsetattr, htty, hset, hraw]

theorem enable_failure_unfold (k : TermiosConsts) (st : RawState) (w : Ttys)
    (fd : Int)
    (hfail : (w fd).isatty = false ∨ (w fd).getOk = false ∨
      (w fd).setOk = false) :
    (setRawMode k st w fd 1).ret = -1 ∧
    (setRawMode k st w fd 1).st.rawmode_is_set = st.rawmode_is_set ∧
    (setRawMode k st w fd 1).w = w := by
  unfold setRawMode
  rw [if_neg (by decide)]
  cases htty : (w fd).isatty with
  | false => simp
  | true =>
    cases hget : (w fd).getOk with
    | false => simp [tcgetattr, htty, hget]
    | true =>
      cases hset : (w fd).setOk with
      | false => simp [tcgetattr, tcsetattr, htty, hget, hset]
      | true => simp [htty, hget, hset] at hfail

/-- C8, refuted at a double enable: on a terminal where every call succeeds,
a second `setRawMode(0, 1)` made while raw mode is active returns 0 and
overwrites the saved attributes with the raw ones, so they differ from the
terminal's original attributes; the `setRawMode(0, 0)` that follows
succeeds and leaves the terminal with raw attributes, not the original
ones. -/
theorem double_enable_overwrites_saved :
    (setRawMode linuxConsts (RawState.init linuxConsts) (fun _ => cookedTty)
      0 1).st.rawmode_is_set = true ∧
    (setRawMode linuxConsts (RawState.init linuxConsts) (fun _ => cookedTty)
      0 1).st.orig_termios = cookedTty.attrs ∧
    (setRawMode linuxConsts
      (setRawMode linuxConsts (RawState.init linuxConsts)
        (fun _ => cookedTty) 0 1).st
      (setRawMode linuxConsts (RawState.init linuxConsts)
        (fun _ => cookedTty) 0 1).w 0 1).ret = 0 ∧
    (setRawMode linuxConsts
      (setRawMode linuxConsts (RawState.init linuxConsts)
        (fun _ => cookedTty) 0 1).st
      (setRawMode linuxConsts (RawState.init linuxConsts)
        (fun _ => cookedTty) 0 1).w 0 1).st.orig_termios
      ≠ cookedTty.attrs ∧
    ((setRawMode linuxConsts
      (setRawMode linuxConsts
        (setRawMode linuxConsts (RawState.init linuxConsts)
          (fun _ => cookedTty) 0 1).st
        (setRawMode linuxConsts (RawState.init linuxConsts)
          (fun _ => cookedTty) 0 1).w 0 1).st
      (setRawMode linuxConsts
        (setRawMode linuxConsts (RawState.init linuxConsts)
          (fun _ => cookedTty) 0 1).st
        (setRawMode linuxConsts (RawState.init linuxConsts)
          (fun _ => cookedTty) 0 1).w 0 1).w 0 0).w 0).attrs
      ≠ cookedTty.attrs ∧
    ((setRawMode linuxConsts
      (setRawMode linuxConsts
        (setRawMode linuxConsts (RawState.init linuxConsts)
          (fun _ => cookedTty) 0 1).st
        (setRawMode linuxConsts (RawState.init linuxConsts)
          (fun _ => cookedTty) 0 1).w 0 1).st
      (setRawMode linuxConsts
        (setRawMode linuxConsts (RawState.init linuxConsts)
          (fun _ => cookedTty) 0 1).st
        (setRawMode linuxConsts (RawState.init linuxConsts)
          (fun _ => cookedTty) 0 1).w 0 1).w 0 0).w 0).attrs
      = makeRaw linuxConsts cookedTty.attrs := by
  decide

theorem enable_set_fails (k : TermiosConsts) (st : RawState) (w : Ttys)
    (fd : Int) (htty : (w fd).isatty = true) (hget : (w fd).getOk = true)
    (hset : (w fd).setOk = false) :
    setRawMode k st w fd 1 =
      ⟨{ orig_termios := (w fd).attrs, atexit_registered := true,
         rawmode_is_set := st.rawmode_is_set }, w, -1⟩ := by
  unfold setRawMode
  simp [tcgetattr, tcsetattr, htty, hget, hset]

/-- C8 as amended: `setRawMode(fd, 1)` saves the terminal's attributes on
every call that gets as far as a successful `tcgetattr`; there is no test
for an earlier capture, and the capture is made whether or not the
`tcsetattr` that follows succeeds. So on a terminal whose `tcgetattr`
succeeds the call leaves the saved attributes equal to those the terminal had
on entry, with the exit handler registered. If `tcsetattr` fails the call
returns -1 with the raw-mode flag and the terminals as they were. If it
succeeds the call returns 0, marks raw mode active and puts the terminal in
the derived raw attributes; the `setRawMode(fd, 0)` that follows returns 0,
puts the terminal back to exactly the attributes it had before the enabling
call, and marks raw mode inactive. -/
theorem enable_saves_disable_restores (k : TermiosConsts) (st : RawState)
    (w : Ttys) (fd : Int) (htty : (w fd).isatty = true)
    (hget : (w fd).getOk = true) :
    (setRawMode k st w fd 1).st.orig_termios = (w fd).attrs ∧
    (setRawMode k st w fd 1).st.atexit_registered = true ∧
    ((w fd).setOk = false →
      (setRawMode k st w fd 1).ret = -1 ∧
      (setRawMode k st w fd 1).st.rawmode_is_set = st.rawmode_is_set ∧
      (setRawMode k st w fd 1).w = w) ∧
    ((w fd).setOk = true →
      (setRawMode k st w fd 1).ret = 0 ∧
      (setRawMode k st w fd 1).st.rawmode_is_set = true ∧
      ((setRawMode k st w fd 1).w fd).attrs = makeRaw k (w fd).attrs ∧
      (setRawMode k (setRawMode k st w fd 1).st (setRawMode k st w fd 1).w
        fd 0).ret = 0 ∧
      ((setRawMode k (setRawMode k st w fd 1).st (setRawMode k st w fd 1).w
        fd 0).w fd).attrs = (w fd).attrs ∧
      (setRawMode k (setRawMode k st w fd 1).st (setRawMode k st w fd 1).w
        fd 0).st.rawmode_is_set = false) := by
  cases hset : (w fd).setOk with
  | false =>
    rw [enable_set_fails k st w fd htty hget hset]
    simp
  | true =>
    rw [enable_success k st w fd htty hget hset]
    dsimp only
    rw [disable_active k _ _ fd rfl (by simp [htty]) (by simp [hset])]
    simp

theorem enable_saves_disable_restores_witness :
    cookedTty.isatty = true ∧ cookedTty.getOk = true ∧
    cookedTty.setOk = true ∧
    (setRawMode linuxConsts (RawState.init linuxConsts) (fun _ => cookedTty)
      0 1).st.orig_termios = cookedTty.attrs ∧
    ((setRawMode linuxConsts
      (setRawMode linuxConsts (RawState.init linuxConsts)
        (fun _ => cookedTty) 0 1).st
      (setRawMode linuxConsts (RawState.init linuxConsts)
        (fun _ => cookedTty) 0 1).w 0 0).w 0).attrs
      = ⟨0x6d02, 5, 0xbf, 0x8a3b, List.replicate 32 0⟩ ∧
    stuckTty.isatty = true ∧ stuckTty.getOk = true ∧
    stuckTty.setOk = false ∧
    (setRawMode linuxConsts (RawState.init linuxConsts) (fun _ => stuckTty)
      0 1).st.orig_termios = ⟨0x6d02, 5, 0xbf, 0x8a3b, List.replicate 32 0⟩ ∧
    (setRawMode linuxConsts (RawState.init linuxConsts) (fun _ => stuckTty)
      0 1).ret = -1 :=
  have h := enable_saves_disable_restores linuxConsts
    (RawState.init linuxConsts) (fun _ => cookedTty) 0 rfl rfl
  have g := enable_saves_disable_restores linuxConsts
    (RawState.init linuxConsts) (fun _ => stuckTty) 0 rfl rfl
  ⟨rfl, rfl, rfl, h.1, (h.2.2.2 rfl).2.2.2.2.1, rfl, rfl, rfl, g.1,
   (g.2.2.1 rfl).1⟩

/-! ## The loop and the terminal -/

theorem dispatchLine_frame (p : Prog) :
    (dispatchLine p).raw = p.raw ∧ (dispatchLine p).term = p.term :=
  ⟨rfl, rfl⟩

theorem keyStep_frame (charSigned : Bool) (p : Prog) (b : Nat) :
    (keyStep charSigned p b).raw = p.raw ∧
    (keyStep charSigned p b).term = p.term := by
  unfold keyStep
  dsimp only
  split <;> exact ⟨rfl, rfl⟩

theorem foldl_keyStep_frame (charSigned : Bool) (bs : List Nat) :
    ∀ p : Prog, (bs.foldl (keyStep charSigned) p).raw = p.raw ∧
      (bs.foldl (keyStep charSigned) p).term = p.term := by
  induction bs with
  | nil => intro p; exact ⟨rfl, rfl⟩
  | cons b t ih =>
    intro p
    obtain ⟨h1, h2⟩ := ih (keyStep charSigned p b)
    obtain ⟨g1, g2⟩ := keyStep_frame charSigned p b
    exact ⟨h1.trans g1, h2.trans g2⟩

theorem exit_status (k : TermiosConsts) (p : Prog) (status : Int) :
    (exit k p status).status = some status := by
  unfold exit
  split <;> rfl

theorem exit_ne_running (k : TermiosConsts) (p : Prog) (status : Int)
    (q : Prog) : exit k p status ≠ Outcome.running q := by
  intro h
  have := exit_status k p status
  rw [h] at this
  exact absurd this (by simp [Outcome.status])

theorem loopIter_frame (k : TermiosConsts) (charSigned : Bool) (p q : Prog)
    (ev : Event) (h : loopIter k charSigned p ev = Outcome.running q) :
    q.raw = p.raw ∧ q.term = p.term := by
  cases ev with
  | selectFail => exact absurd h (exit_ne_running k _ 1 q)
  | selectNone =>
    injection h with h
    subst h
    exact ⟨rfl, rfl⟩
  | remote r =>
    change remoteBranch k _ r = Outcome.running q at h
    unfold remoteBranch at h
    split at h
    · exact absurd h (exit_ne_running k _ 1 q)
    · injection h with h
      subst h
      exact ⟨rfl, rfl⟩
  | keyboard r =>
    change Outcome.running (keyboardBranch charSigned _ r)
      = Outcome.running q at h
    injection h with h
    subst h
    exact foldl_keyStep_frame charSigned r.bytes _

theorem runLoop_frame (k : TermiosConsts) (charSigned : Bool)
    (evs : List Event) :
    ∀ p q : Prog, runLoop k charSigned p evs = Outcome.running q →
      q.raw = p.raw ∧ q.term = p.term := by
  induction evs with
  | nil =>
    intro p q h
    injection h with h
    subst h
    exact ⟨rfl, rfl⟩
  | cons ev t ih =>
    intro p q h
    unfold runLoop at h
    split at h
    · rename_i p1 e
      obtain ⟨a1, a2⟩ := loopIter_frame k charSigned p p1 ev e
      obtain ⟨b1, b2⟩ := ih p1 q h
      exact ⟨b1.trans a1, b2.trans a2⟩
    · exact absurd h (by simp)

theorem runLoop_snoc (k : TermiosConsts) (charSigned : Bool)
    (evs : List Event) (ev : Event) :
    ∀ p q : Prog, runLoop k charSigned p evs = Outcome.running q →
      runLoop k charSigned p (evs ++ [ev]) = loopIter k charSigned q ev := by
  induction evs with
  | nil =>
    intro p q h
    injection h with h
    subst h
    simp only [List.nil_append, runLoop]
    cases loopIter k charSigned p ev <;> rfl
  | cons e t ih =>
    intro p q h
    unfold runLoop at h
    simp only [List.cons_append]
    unfold runLoop
    split at h
    · rename_i p1 e1
      exact ih p1 q h
    · exact absurd h (by simp)

theorem remoteBranch_closed (k : TermiosConsts) (p : Prog) (r : ReadResult)
    (hle : r.count ≤ 0) :
    remoteBranch k p r = exit k { p with out := p.out ++ connectionLost } 1 := by
  unfold remoteBranch
  rw [if_pos hle]

theorem exit_registered (k : TermiosConsts) (p : Prog) (status : Int)
    (h : p.raw.atexit_registered = true) :
    exit k p status = Outcome.exited
      { p with raw := (setRawMode k p.raw p.term STDIN_FILENO 0).st,
               term := (setRawMode k p.raw p.term STDIN_FILENO 0).w }
      status := by
  unfold exit disableRawModeAtExit
  rw [if_pos h]

theorem main_enters_loop (k : TermiosConsts) (charSigned : Bool)
    (argv0 : List Nat) (sock : Int) (ib0 : InputBuffer) (term : Ttys)
    (evs : List Event) (hs : sock ≠ -1) :
    main k charSigned 3 argv0 sock ib0 term evs =
      runLoop k charSigned
        ⟨(inputBufferClear ib0).1,
         (setRawMode k (RawState.init k) term STDIN_FILENO 1).st,
         (setRawMode k (RawState.init k) term STDIN_FILENO 1).w,
         (inputBufferClear ib0).2, [], [], []⟩ evs := by
  unfold main
  simp only [ne_eq, not_true_eq_false, if_false, if_neg hs]

/-- C9: for every program state (any buffer), when the `read` on the socket
returns zero or a negative count, the socket branch writes the 16 bytes of
the notice `Connection lost` with its newline and nothing else (no hide, no
data, no show), leaves the
buffer as it was and the process exits with status 1. If the exit handler
was registered (an earlier `setRawMode(fd, 1)` got past `isatty`), the state
left behind is that of `setRawMode(STDIN_FILENO, 0)`; with raw mode active
and the `tcsetattr` of that call succeeding, the terminal ends with the saved
attributes and raw mode inactive. From `main`: on a terminal whose attribute
calls succeed, if the loop is still running after the events `evs`, a socket
read returning a count `≤ 0` next ends the program with status 1, the notice
appended to the output, and the terminal back to the attributes it had when
`main` started. -/
theorem remote_closed_ends_session (k : TermiosConsts) (charSigned : Bool)
    (p : Prog) (r : ReadResult) (hle : r.count ≤ 0) :
    (remoteBranch k p r).status = some 1 ∧
    (remoteBranch k p r).prog.out = p.out ++ [67, 111, 110, 110, 101, 99, 116, 105, 111, 110, 32, 108, 111, 115, 116,
        10] ∧
    (remoteBranch k p r).prog.ib = p.ib ∧
    (remoteBranch k p r).prog.sent = p.sent ∧
    (p.raw.atexit_registered = true →
      (remoteBranch k p r).prog.raw
        = (setRawMode k p.raw p.term STDIN_FILENO 0).st ∧
      (remoteBranch k p r).prog.term
        = (setRawMode k p.raw p.term STDIN_FILENO 0).w) ∧
    (p.raw.atexit_registered = true → p.raw.rawmode_is_set = true →
      (p.term STDIN_FILENO).isatty = true →
      (p.term STDIN_FILENO).setOk = true →
      ((remoteBranch k p r).prog.term STDIN_FILENO).attrs
        = p.raw.orig_termios ∧
      (remoteBranch k p r).prog.raw.rawmode_is_set = false) ∧
    (∀ (argv0 : List Nat) (sock : Int) (ib0 : InputBuffer) (term : Ttys)
        (evs : List Event) (q : Prog),
      sock ≠ -1 → (term STDIN_FILENO).isatty = true →
      (term STDIN_FILENO).getOk = true → (term STDIN_FILENO).setOk = true →
      main k charSigned 3 argv0 sock ib0 term evs = Outcome.running q →
      (main k charSigned 3 argv0 sock ib0 term
        (evs ++ [Event.remote r])).status = some 1 ∧
      (main k charSigned 3 argv0 sock ib0 term
        (evs ++ [Event.remote r])).prog.out = q.out ++ [67, 111, 110, 110, 101, 99, 116, 105, 111, 110, 32, 108, 111, 115, 116,
        10] ∧
      ((main k charSigned 3 argv0 sock ib0 term
        (evs ++ [Event.remote r])).prog.term STDIN_FILENO).attrs
        = (term STDIN_FILENO).attrs) := by
  have e := remoteBranch_closed k p r hle
  have hout : (remoteBranch k p r).prog.out = p.out ++
      [67, 111, 110, 110, 101, 99, 116, 105, 111, 110, 32, 108, 111, 115, 116,
        10] := by
    rw [e]; unfold exit; split <;> rfl
  have hsent : (remoteBranch k p r).prog.sent = p.sent := by
    rw [e]; unfold exit; split <;> rfl
  have hreg : p.raw.atexit_registered = true →
      (remoteBranch k p r).prog.raw
        = (setRawMode k p.raw p.term STDIN_FILENO 0).st ∧
      (remoteBranch k p r).prog.term
        = (setRawMode k p.raw p.term STDIN_FILENO 0).w := by
    intro h
    rw [e, exit_registered k { p with out := p.out ++ connectionLost } 1 h]
    exact ⟨rfl, rfl⟩
  have hrestore : p.raw.atexit_registered = true →
      p.raw.rawmode_is_set = true →
      (p.term STDIN_FILENO).isatty = true →
      (p.term STDIN_FILENO).setOk = true →
      ((remoteBranch k p r).prog.term STDIN_FILENO).attrs
        = p.raw.orig_termios ∧
      (remoteBranch k p r).prog.raw.rawmode_is_set = false := by
    intro h1 h2 h3 h4
    obtain ⟨a, b⟩ := hreg h1
    rw [a, b, disable_active k p.raw p.term STDIN_FILENO h2 h3 h4]
    simp
  refine ⟨by rw [e]; exact exit_status k _ 1, hout,
    remoteBranch_ib k p r, hsent, hreg, hrestore, ?_⟩
  intro argv0 sock ib0 term evs q hs htty hget hset hrun
  rw [main_enters_loop k charSigned argv0 sock ib0 term _ hs] at hrun ⊢
  obtain ⟨f1, f2⟩ := runLoop_frame k charSigned evs _ q hrun
  rw [runLoop_snoc k charSigned evs (Event.remote r) _ q hrun]
  rw [enable_success k _ term STDIN_FILENO htty hget hset] at f1 f2
  dsimp only at f1 f2
  have hq : loopIter k charSigned q (Event.remote r)
      = remoteBranch k
          { q with calls := q.calls ++ [Call.select, Call.readSock] } r := rfl
  rw [hq, remoteBranch_closed k _ r hle]
  have hregq : ({ q with calls := q.calls ++ [Call.select, Call.readSock],
                         out := q.out ++ connectionLost } : Prog
                ).raw.atexit_registered = true := by
    show q.raw.atexit_registered = true
    rw [f1]
  refine ⟨exit_status k _ 1, ?_, ?_⟩
  · unfold exit; split <;> rfl
  · rw [exit_registered k _ 1 hregq]
    show ((setRawMode k q.raw q.term STDIN_FILENO 0).w STDIN_FILENO).attrs
      = (term STDIN_FILENO).attrs
    rw [disable_active k q.raw q.term STDIN_FILENO (by rw [f1])
      (by rw [f2]; simp [htty]) (by rw [f2]; simp [hset])]
    simp [f1]

theorem remote_closed_ends_session_witness :
    (0 : Int) ≤ 0 ∧
    (rawProgOf (bufferOf [104, 101] 2) [120]).raw.atexit_registered = true ∧
    (rawProgOf (bufferOf [104, 101] 2) [120]).raw.rawmode_is_set = true ∧
    ((rawProgOf (bufferOf [104, 101] 2) [120]).term STDIN_FILENO).isatty
      = true ∧
    ((rawProgOf (bufferOf [104, 101] 2) [120]).term STDIN_FILENO).setOk
      = true ∧
    ((rawProgOf (bufferOf [104, 101] 2) [120]).term STDIN_FILENO).attrs
      = ⟨0x6800, 5, 0xbf, 0xa31, (List.replicate 32 0).set 6 1⟩ ∧
    (remoteBranch linuxConsts (rawProgOf (bufferOf [104, 101] 2) [120])
      (ReadResult.mk 0 [121, 111])).status = some 1 ∧
    (remoteBranch linuxConsts (rawProgOf (bufferOf [104, 101] 2) [120])
      (ReadResult.mk 0 [121, 111])).prog.out
      = [120, 67, 111, 110, 110, 101, 99, 116, 105, 111, 110, 32, 108, 111,
         115, 116, 10] ∧
    ((remoteBranch linuxConsts (rawProgOf (bufferOf [104, 101] 2) [120])
      (ReadResult.mk 0 [121, 111])).prog.term STDIN_FILENO).attrs
      = ⟨0x6d02, 5, 0xbf, 0x8a3b, List.replicate 32 0⟩ ∧
    (remoteBranch linuxConsts (rawProgOf (bufferOf [104, 101] 2) [120])
      (ReadResult.mk 0 [121, 111])).prog.raw.rawmode_is_set = false ∧
    (5 : Int) ≠ -1 ∧
    (main linuxConsts true 3 [] 5 zeroBuffer (fun _ => cookedTty)
      ([Event.keyboard (readOf [104])] ++
        [Event.remote (ReadResult.mk 0 [121, 111])])).prog.out
      = [27, 91, 50, 75, 13, 104, 67, 111, 110, 110, 101, 99, 116, 105, 111,
         110, 32, 108, 111, 115, 116, 10] ∧
    ((main linuxConsts true 3 [] 5 zeroBuffer (fun _ => cookedTty)
      ([Event.keyboard (readOf [104])] ++
        [Event.remote (ReadResult.mk 0 [121, 111])])).prog.term
      STDIN_FILENO).attrs = ⟨0x6d02, 5, 0xbf, 0x8a3b, List.replicate 32 0⟩ :=
  have h := remote_closed_ends_session linuxConsts true
    (rawProgOf (bufferOf [104, 101] 2) [120]) (ReadResult.mk 0 [121, 111])
    (by decide)
  have g := h.2.2.2.2.2.2 [] 5 zeroBuffer (fun _ => cookedTty)
    [Event.keyboard (readOf [104])] _ (by decide) rfl rfl rfl rfl
  ⟨by decide, by decide, by decide, by decide, by decide, by decide,
   h.1, h.2.1,
   (h.2.2.2.2.2.1 (by decide) (by decide) (by decide) (by decide)).1,
   (h.2.2.2.2.2.1 (by decide) (by decide) (by decide) (by decide)).2,
   by decide, g.2.1, g.2.2⟩

/-- C10, refuted when standard input is not a terminal: `setRawMode(0, 1)`
returns -1 and leaves raw mode inactive, yet `main` does not stop: on a
keyboard event and then a socket event it waits in `select` twice, reads the
keyboard and the socket, echoes the typed byte, and is still in the loop. -/
theorem failed_enable_still_enters_loop :
    (setRawMode linuxConsts (RawState.init linuxConsts) (fun _ => pipeFd)
      STDIN_FILENO 1).ret = -1 ∧
    (setRawMode linuxConsts (RawState.init linuxConsts) (fun _ => pipeFd)
      STDIN_FILENO 1).st.rawmode_is_set = false ∧
    (main linuxConsts true 3 [] 5 zeroBuffer (fun _ => pipeFd)
      [Event.keyboard (readOf [97]), Event.remote (readOf [98])]).status
      = none ∧
    (main linuxConsts true 3 [] 5 zeroBuffer (fun _ => pipeFd)
      [Event.keyboard (readOf [97]), Event.remote (readOf [98])]).prog.calls
      = [Call.select, Call.readStdin, Call.select, Call.readSock] ∧
    (main linuxConsts true 3 [] 5 zeroBuffer (fun _ => pipeFd)
      [Event.keyboard (readOf [97]), Event.remote (readOf [98])]).prog.out
      = [27, 91, 50, 75, 13, 97, 27, 91, 50, 75, 13, 98, 97] := by
  decide

/-- C10 as amended: `setRawMode(fd, 1)` fails when the descriptor is not a
terminal or when getting or setting the attributes fails: it returns -1,
leaves the raw-mode flag as it was (inactive when it was inactive) and the
terminals untouched. The failure is not fatal to the caller: `main` does not
look at the returned value, and with the enable on standard input failing it
goes on to clear the buffer and run the event loop, raw mode inactive and
the terminals as they were at start. -/
theorem enable_failure_ignored (k : TermiosConsts) (charSigned : Bool)
    (st : RawState) (w : Ttys) (fd : Int)
    (hfail : (w fd).isatty = false ∨ (w fd).getOk = false ∨
      (w fd).setOk = false) :
    (setRawMode k st w fd 1).ret = -1 ∧
    (setRawMode k st w fd 1).st.rawmode_is_set = st.rawmode_is_set ∧
    (setRawMode k st w fd 1).w = w ∧
    (fd = STDIN_FILENO →
      ∀ (argv0 : List Nat) (sock : Int) (ib0 : InputBuffer)
        (evs : List Event), sock ≠ -1 →
      (setRawMode k (RawState.init k) w STDIN_FILENO 1).st.rawmode_is_set
        = false ∧
      main k charSigned 3 argv0 sock ib0 w evs =
        runLoop k charSigned
          ⟨(inputBufferClear ib0).1,
           (setRawMode k (RawState.init k) w STDIN_FILENO 1).st, w,
           (inputBufferClear ib0).2, [], [], []⟩ evs) := by
  obtain ⟨a, b, c⟩ := enable_failure_unfold k st w fd hfail
  refine ⟨a, b, c, ?_⟩
  intro hfd argv0 sock ib0 evs hs
  subst hfd
  obtain ⟨_, b1, c1⟩ :=
    enable_failure_unfold k (RawState.init k) w STDIN_FILENO hfail
  refine ⟨b1, ?_⟩
  rw [main_enters_loop k charSigned argv0 sock ib0 w evs hs, c1]

theorem enable_failure_ignored_witness :
    (pipeFd.isatty = false ∨ pipeFd.getOk = false ∨ pipeFd.setOk = false) ∧
    (setRawMode linuxConsts (RawState.init linuxConsts) (fun _ => pipeFd)
      STDIN_FILENO 1).ret = -1 ∧
    (setRawMode linuxConsts (RawState.init linuxConsts) (fun _ => pipeFd)
      STDIN_FILENO 1).w = (fun _ => pipeFd) :=
  have h := enable_failure_ignored linuxConsts true
    (RawState.init linuxConsts) (fun _ => pipeFd) STDIN_FILENO
    (Or.inl rfl)
  ⟨Or.inl rfl, h.1, h.2.2.1⟩

end TinyChat
